import Mathlib

/-!
# go.wde Wayland backend: shallow embedding and verified properties

Embedding of `src/wayland/events.go` and `src/wayland/wayland.go`.

Conventions of the embedding.

* Go `int` is the 64-bit two's complement integer of the amd64 targets; the
  arithmetic of the source is written over `Int` with an explicit wrap
  (`wrapInt`), and the conversion `int32(v)` is `toInt32`.
* Every call that leaves the process (a request to the display server, a
  system call, the start of a goroutine) is recorded as an `Action`; a function
  of the source becomes a function that returns its result together with the
  list of actions performed by the calling goroutine, in program order.
* The outcome of a call whose body is not part of this repository (the gowl
  protocol client, the standard library system calls) is read from an
  environment `Env`, or from the list of poll outcomes handed to a wait loop.
-/

namespace Wayland

/-! ## Machine integers -/

/-- Wrap of an integer into the range of a 64-bit Go `int`. -/
def wrapInt (v : Int) : Int := (v + 2 ^ 63) % 2 ^ 64 - 2 ^ 63

/-- The Go conversion `int32(v)`: two's complement truncation to 32 bits. -/
def toInt32 (v : Int) : Int := (v + 2 ^ 31) % 2 ^ 32 - 2 ^ 31

/-- The value is a 64-bit Go `int`. -/
def isInt (v : Int) : Prop := -(2 ^ 63) ≤ v ∧ v < 2 ^ 63

/-- The value is representable as a Go `int32`. -/
def fitsInt32 (v : Int) : Prop := -(2 ^ 31) ≤ v ∧ v < 2 ^ 31

instance (v : Int) : Decidable (isInt v) := by unfold isInt; infer_instance

instance (v : Int) : Decidable (fitsInt32 v) := by unfold fitsInt32; infer_instance

/-! ## Package image (standard library): points and rectangles -/

/-- Go `image.Point`. -/
structure Point where
  X : Int
  Y : Int
  deriving DecidableEq, Repr

/-- Go `image.Rectangle`. -/
structure Rectangle where
  Min : Point
  Max : Point
  deriving DecidableEq, Repr

/-- Go `Rectangle.Dx`: `r.Max.X - r.Min.X` in `int` arithmetic. -/
def Rectangle.Dx (r : Rectangle) : Int := wrapInt (r.Max.X - r.Min.X)

/-- Go `Rectangle.Dy`: `r.Max.Y - r.Min.Y` in `int` arithmetic. -/
def Rectangle.Dy (r : Rectangle) : Int := wrapInt (r.Max.Y - r.Min.Y)

/-- Go `image.Rect`: the rectangle with the given corners, the minimum and
maximum coordinates swapped where necessary so that it is well formed. -/
def Rect (x0 y0 x1 y1 : Int) : Rectangle :=
  let xs := if x0 > x1 then (x1, x0) else (x0, x1)
  let ys := if y0 > y1 then (y1, y0) else (y0, y1)
  { Min := { X := xs.1, Y := ys.1 }, Max := { X := xs.2, Y := ys.2 } }

/-! ## Package wde: buttons and window events -/

/-- Modelled from the spec: the type `wde.Button` and its constants are declared
in the wde package, which is not under src/. The spec lists the button of a
window event as one of Left, Middle, Right, None; `NoButton` is the value `0`
that `getButton` returns for an unmapped code. -/
inductive Button where
  | NoButton
  | LeftButton
  | MiddleButton
  | RightButton
  deriving DecidableEq, Repr

/-- The values that `handleEvents` sends on `w.eventchan`: the wde event
structs, with the fields the source assigns. -/
inductive WindowEvent where
  | MouseEnteredEvent (Where : Point)
  | MouseExitedEvent
  | MouseMovedEvent (Where : Point)
  | MouseDownEvent (Which : Button) (Where : Point)
  | MouseUpEvent (Which : Button) (Where : Point)
  deriving DecidableEq, Repr

/-! ## events.go -/

/-- The four pointer event sources of `handleEvents`, one constructor per
listener channel, carrying the fields of the gowl event struct that the source
reads. `SurfaceX`, `SurfaceY` are gowl's 32-bit protocol integers, for which the
conversion `int(·)` is the identity; `Button` and `State` are `uint32`. -/
inductive PointerEvent where
  | enter (SurfaceX SurfaceY : Int)
  | leave
  | motion (SurfaceX SurfaceY : Int)
  | button (Button State : Nat)
  deriving DecidableEq, Repr

/-- Source `getButton` (events.go:57-67). -/
def getButton (button : Nat) : Button :=
  if button = 272 then Button.LeftButton
  else if button = 273 then Button.MiddleButton
  else if button = 274 then Button.RightButton
  else Button.NoButton

/-- The local state of `handleEvents`: `var lastX, lastY int`. -/
structure Cursor where
  lastX : Int
  lastY : Int
  deriving DecidableEq, Repr

/-- One turn of the `select` loop of `handleEvents` (events.go:21-53): the
new cursor state and the value sent on `w.eventchan`. -/
def handleEvent (c : Cursor) : PointerEvent → Cursor × WindowEvent
  | .enter sx sy =>
      let c1 : Cursor := { lastX := sx, lastY := sy }
      (c1, .MouseEnteredEvent { X := c1.lastX, Y := c1.lastY })
  | .leave => (c, .MouseExitedEvent)
  | .motion sx sy =>
      let c1 : Cursor := { lastX := sx, lastY := sy }
      (c1, .MouseMovedEvent { X := c1.lastX, Y := c1.lastY })
  | .button b state =>
      if state = 1 then
        (c, .MouseDownEvent (getButton b) { X := c.lastX, Y := c.lastY })
      else
        (c, .MouseUpEvent (getButton b) { X := c.lastX, Y := c.lastY })

/-- The `for { select { ... } }` loop of `handleEvents` run from cursor state
`c` over the pointer events in their order of arrival: the sends on
`w.eventchan`, in order. -/
def handleEventsFrom (c : Cursor) : List PointerEvent → List WindowEvent
  | [] => []
  | e :: es => (handleEvent c e).2 :: handleEventsFrom (handleEvent c e).1 es

/-- Source `handleEvents` (events.go:8-55): the loop started with
`var lastX, lastY int`, both zero. -/
def handleEvents (evs : List PointerEvent) : List WindowEvent :=
  handleEventsFrom { lastX := 0, lastY := 0 } evs

/-- The event carries a pointer position: it is an enter or a motion event. -/
def PointerEvent.hasPosition : PointerEvent → Bool
  | .enter _ _ => true
  | .motion _ _ => true
  | _ => false

/-- The position carried by the most recent enter or motion event of a
sequence of pointer events, `(0, 0)` when there is none. -/
def lastPosition (evs : List PointerEvent) : Point :=
  match evs.reverse.find? PointerEvent.hasPosition with
  | some (.enter x y) => { X := x, Y := y }
  | some (.motion x y) => { X := x, Y := y }
  | _ => { X := 0, Y := 0 }

/-- The window event that a pointer event is translated to when `pos` is the
position of the most recent preceding enter or motion event. -/
def translated (pos : Point) : PointerEvent → WindowEvent
  | .enter x y => .MouseEnteredEvent { X := x, Y := y }
  | .leave => .MouseExitedEvent
  | .motion x y => .MouseMovedEvent { X := x, Y := y }
  | .button b state =>
      if state = 1 then .MouseDownEvent (getButton b) pos
      else .MouseUpEvent (getButton b) pos

/-! ## wayland.go: data -/

/-- Go `error` values: a `syscall.Errno`, or an error of the gowl client. -/
inductive Error where
  | errno (n : Nat)
  | other (msg : String)
  deriving DecidableEq, Repr

/-- The errno `syscall.EINVAL`. -/
def EINVAL : Error := .errno 22

/-- The gowl protocol objects that `NewWindow` allocates, one per pointer
field of `Window`. -/
inductive Obj where
  | display | compositor | surface | shell | shellsurface | shm | pool | buffer
  | seat | pointer | keyboard | ddm | dd
  deriving DecidableEq, Repr

/-- The goroutines that `NewWindow` starts: the globals listener (line 96), the
ping responder (line 149), `handleEvents` (line 156) and the perpetual
`display.Iterate` loop (line 159). -/
inductive Goroutine where
  | globals | pings | handleEvents | pump
  deriving DecidableEq, Repr

/-- The calls of the source that leave the process, with their arguments. -/
inductive Action where
  | Connect
  | AddGlobalListener
  | Iterate
  | AddDoneListener
  | Sync
  | CreateTmp (size : Int)
  | Mmap (fd : Int) (offset : Int) (length : Int)
  | CreatePool (pool : Option Obj) (fd : Int) (size : Int)
  | CreateBuffer (buffer : Option Obj) (offset width height stride format : Int)
  | PoolDestroy
  | CreateSurface (surface : Option Obj)
  | GetShellSurface (shellsurface surface : Option Obj)
  | SetToplevel
  | AddPingListener
  | Go (g : Goroutine)
  | SetTitle (title : String)
  | Attach (buffer : Option Obj) (x y : Int)
  | Damage (x y width height : Int)
  | Frame
  | Bind (name : Nat) (iface : String) (version : Nat) (target : Option Obj)
  | GetDataDevice (dd seat : Option Obj)
  | GetPointer (pointer : Option Obj)
  deriving DecidableEq, Repr

/-- Go `image.RGBA`: the length of `Pix`, `Stride` and `Rect`. -/
structure RGBA where
  PixLen : Int
  Stride : Int
  Rect : Rectangle
  deriving DecidableEq, Repr

/-- The largest allocation that the Go runtime accepts on linux/amd64: `make`
panics for a slice of more bytes. -/
def maxAlloc : Int := 2 ^ 48

/-- Go `image.NewRGBA` (standard library): an image of the rectangle with a
buffer of `4 * Dx * Dy` bytes, allocated with `make`, and stride `4 * Dx`. It
does not return (`none`) when a dimension is negative, when the computation of
the buffer length overflows, or when the allocation of the buffer fails: the
length exceeds `maxAlloc`, or it exceeds `heapLimit`, the number of bytes that
the heap of this run of the program can still provide. -/
def NewRGBA (heapLimit : Nat) (r : Rectangle) : Option RGBA :=
  let w := r.Dx
  let h := r.Dy
  if w < 0 ∨ h < 0 ∨ 2 ^ 64 ≤ 4 * w ∨ maxAlloc < 4 * w * h ∨
      (heapLimit : Int) < 4 * w * h then none
  else some { PixLen := 4 * w * h, Stride := wrapInt (4 * w), Rect := r }

/-- Source `Window` (wayland.go:47-64). A pointer field is `none` while it is
nil; `eventchan` tells whether the channel has been made. -/
structure Window where
  display : Option Obj
  compositor : Option Obj
  surface : Option Obj
  shell : Option Obj
  shellsurface : Option Obj
  shm : Option Obj
  pool : Option Obj
  buffer : Option Obj
  seat : Option Obj
  pointer : Option Obj
  keyboard : Option Obj
  ddm : Option Obj
  dd : Option Obj
  screen : Option RGBA
  eventchan : Bool
  deriving DecidableEq, Repr

/-- Go `new(Window)`: every field zero. -/
def Window.new : Window :=
  { display := none, compositor := none, surface := none, shell := none,
    shellsurface := none, shm := none, pool := none, buffer := none, seat := none,
    pointer := none, keyboard := none, ddm := none, dd := none, screen := none,
    eventchan := false }

/-! ## wayland.go: the synchronous barrier -/

/-- The outcome of one turn of the `for { select { case <-done: ...; default:
... } }` loop: either a value is received from `done`, or the queue is empty
and `display.Iterate()` is called, with the error it returns. -/
inductive Poll where
  | found
  | empty (iterate : Option Error)
  deriving DecidableEq, Repr

/-- The result of a call that may wait: whether the call returned within the
observed polls, and the actions it performed. -/
structure Call where
  returned : Bool
  trace : List Action
  deriving DecidableEq, Repr

/-- The wait loop `func() { for { select { case <-done: return; default:
display.Iterate() } } }()` of `waitForSync` (wayland.go:223-232) and of
`FlushImage` (wayland.go:198-207), run over the outcomes of its polls. The
value returned by `Iterate` is discarded. When the polls run out with no value
found the loop has not returned. -/
def waitLoop : List Poll → Call
  | [] => { returned := false, trace := [] }
  | .found :: _ => { returned := true, trace := [] }
  | .empty _ :: rest =>
      { returned := (waitLoop rest).returned,
        trace := Action.Iterate :: (waitLoop rest).trace }

/-- Source `waitForSync` (wayland.go:218-233). -/
def waitForSync (polls : List Poll) : Call :=
  { returned := (waitLoop polls).returned,
    trace := [Action.AddDoneListener, Action.Sync] ++ (waitLoop polls).trace }

/-! ## wayland.go: NewWindow -/

/-- The outcomes of the calls of `NewWindow` whose bodies are outside the
repository. -/
structure Env where
  /-- Result of `w.display.Connect()` (line 72). -/
  connect : Option Error
  /-- Result of the first `w.display.Iterate()` (line 118). -/
  iterate : Option Error
  /-- Outcomes of the polls of `waitForSync(w.display)` (line 123). -/
  syncPolls : List Poll
  /-- Number of bytes that the heap can provide to the `make` of
  `image.NewRGBA` (line 126). -/
  heapLimit : Nat
  /-- File descriptor returned by `gowl.CreateTmp` (line 128). -/
  tmpFd : Int
  /-- Result of the mmap system call for a positive length (line 129). -/
  mmap : Option Error
  deriving DecidableEq, Repr

/-- Go `syscall.Mmap` (standard library): a length that is not positive is
refused with `EINVAL` before the system call is made. -/
def Mmap (env : Env) (length : Int) : Option Error :=
  if length ≤ 0 then some EINVAL else env.mmap

/-- How a call of `NewWindow` ends: it returns `(w, err)`, or it never leaves
`waitForSync`, or `image.NewRGBA` does not return: it panics on the
dimensions, or the allocation of its buffer fails. -/
inductive Outcome where
  | returned (w : Option Window) (err : Option Error)
  | blocked
  | panicked
  deriving DecidableEq, Repr

/-- The window after lines 67-92 of `NewWindow`: channel made, display and
every protocol object allocated. -/
def Window.allocated : Window :=
  { Window.new with
    eventchan := true, display := some .display,
    compositor := some .compositor, surface := some .surface,
    shell := some .shell, shellsurface := some .shellsurface,
    shm := some .shm, pool := some .pool, buffer := some .buffer,
    seat := some .seat, pointer := some .pointer, keyboard := some .keyboard,
    ddm := some .ddm, dd := some .dd }

/-- Source `NewWindow` (wayland.go:66-166): the outcome and the actions of the
calling goroutine. -/
def NewWindow (env : Env) (width height : Int) : Outcome × List Action :=
  match env.connect with
  | some err => (.returned none (some err), [.Connect])
  | none =>
    let w := Window.allocated
    let t1 := [Action.Connect, .Go .globals, .AddGlobalListener, .Iterate]
    match env.iterate with
    | some err => (.returned none (some err), t1)
    | none =>
      let sync := waitForSync env.syncPolls
      if sync.returned = false then (.blocked, t1 ++ sync.trace)
      else
        match NewRGBA env.heapLimit (Rect 0 0 width height) with
        | none => (.panicked, t1 ++ sync.trace)
        | some screen =>
          let size := wrapInt (screen.Stride * screen.Rect.Dy)
          let fd := env.tmpFd
          let t2 := t1 ++ sync.trace ++ [.CreateTmp size, .Mmap fd 0 size]
          match Mmap env size with
          | some err => (.returned none (some err), t2)
          | none =>
            let w := { w with screen := some { screen with PixLen := size } }
            (.returned (some w) none,
              t2 ++ [.CreatePool w.pool fd (toInt32 size),
                     .CreateBuffer w.buffer 0 (toInt32 width) (toInt32 height)
                       (toInt32 screen.Stride) 1,
                     .PoolDestroy,
                     .CreateSurface w.surface,
                     .GetShellSurface w.shellsurface w.surface,
                     .SetToplevel,
                     .AddPingListener, .Go .pings,
                     .Go .handleEvents,
                     .Go .pump])

/-! ## wayland.go: the globals listener -/

/-- The gowl event `DisplayGlobal`: an advertised global object. -/
structure DisplayGlobal where
  Name : Nat
  Iface : String
  Version : Nat
  deriving DecidableEq, Repr

/-- Go `unicode.IsSpace` (standard library). -/
def isSpace (c : Char) : Bool :=
  let n := c.toNat
  n = 0x09 || n = 0x0A || n = 0x0B || n = 0x0C || n = 0x0D || n = 0x20 ||
  n = 0x85 || n = 0xA0 || n = 0x1680 || (0x2000 ≤ n && n ≤ 0x200A) ||
  n = 0x2028 || n = 0x2029 || n = 0x202F || n = 0x205F || n = 0x3000

/-- Go `strings.TrimSpace` (standard library): the string without its leading
and trailing white space. -/
def TrimSpace (s : String) : String :=
  String.mk ((s.data.dropWhile isSpace).reverse.dropWhile isSpace).reverse

/-- The body of the `for event := range globals` loop of the globals listener
(wayland.go:97-113): the requests issued for one advertised global. -/
def bindGlobal (w : Window) (global : DisplayGlobal) : List Action :=
  let iface := TrimSpace global.Iface
  if iface = "wl_compositor" then
    [.Bind global.Name global.Iface global.Version w.compositor]
  else if iface = "wl_shm" then
    [.Bind global.Name global.Iface global.Version w.shm]
  else if iface = "wl_shell" then
    [.Bind global.Name global.Iface global.Version w.shell]
  else if iface = "wl_seat" then
    [.Bind global.Name global.Iface global.Version w.seat,
     .GetDataDevice w.dd w.seat,
     .GetPointer w.pointer]
  else if iface = "wl_data_device_manager" then
    [.Bind global.Name global.Iface global.Version w.ddm]
  else []

/-- The globals listener goroutine (wayland.go:96-114) run over the events
received on `globals`. -/
def globalsListener (w : Window) : List DisplayGlobal → List Action
  | [] => []
  | event :: events => bindGlobal w event ++ globalsListener w events

/-! ## wayland.go: the methods of Window -/

/-- Source `Window.SetTitle` (wayland.go:168-170): the receiver after the call
and the request issued. -/
def Window.SetTitle (w : Window) (title : String) : Window × List Action :=
  (w, [.SetTitle title])

/-- Source `Window.SetSize` (wayland.go:172-173): the receiver after the call. -/
def Window.SetSize (w : Window) (_width _height : Int) : Window := w

/-- Source `Window.Size` (wayland.go:175-177); `none` is the nil dereference of
a window without screen. -/
def Window.Size (w : Window) : Option (Int × Int) :=
  match w.screen with
  | none => none
  | some screen => some (screen.Rect.Dx, screen.Rect.Dy)

/-- Source `Window.Show` (wayland.go:179-180): the receiver after the call. -/
def Window.Show (w : Window) : Window := w

/-- Source `Window.FlushImage` (wayland.go:186-208): the receiver after the
call and the call itself, run over the outcomes of the polls of its wait
loop. -/
def Window.FlushImage (w : Window) (bounds : List Rectangle) (polls : List Poll) :
    Window × Call :=
  let damage := bounds.map (fun b =>
    Action.Damage (toInt32 b.Min.X) (toInt32 b.Min.Y) (toInt32 b.Dx) (toInt32 b.Dy))
  (w, { returned := (waitLoop polls).returned,
        trace := [Action.Attach w.buffer 0 0] ++ damage ++
                 [Action.AddDoneListener, Action.Frame] ++ (waitLoop polls).trace })

/-- Source `Window.Close` (wayland.go:214-216): the receiver after the call and
the error returned. -/
def Window.Close (w : Window) : Window × Option Error := (w, none)

/-- A call of one of the public operations of a window. -/
inductive Op where
  | SetTitle (title : String)
  | SetSize (width height : Int)
  | Show
  | FlushImage (bounds : List Rectangle) (polls : List Poll)
  | Close
  deriving DecidableEq, Repr

/-- The receiver after one operation, and whether the operation returned. -/
def Window.call (w : Window) : Op → Window × Bool
  | .SetTitle title => ((w.SetTitle title).1, true)
  | .SetSize width height => (w.SetSize width height, true)
  | .Show => (w.Show, true)
  | .FlushImage bounds polls =>
      ((w.FlushImage bounds polls).1, (w.FlushImage bounds polls).2.returned)
  | .Close => (w.Close.1, true)

/-- The window after a sequence of operations made one after the other by one
caller: the sequence stops at an operation that does not return. -/
def Window.run (w : Window) : List Op → Window
  | [] => w
  | op :: ops => if (w.call op).2 then Window.run (w.call op).1 ops else (w.call op).1

/-- The number of polls that find the queue empty before the first poll that
finds a value. -/
def emptyPolls : List Poll → Nat
  | .empty _ :: rest => emptyPolls rest + 1
  | _ => 0

/-- The poll with the error of its `Iterate` call replaced by success. -/
def Poll.succeed : Poll → Poll
  | .found => .found
  | .empty _ => .empty none

/-- The call is rejected: it returned a nil window together with a non-nil
error. -/
def Outcome.rejected : Outcome → Bool
  | .returned none (some _) => true
  | _ => false

/-- What `Size()` returns on the window that `NewWindow` returned; `none` when
no window was returned. -/
def createdSize (o : Outcome) : Option (Int × Int) :=
  match o with
  | .returned (some w) _ => w.Size
  | _ => none

/-- The bounds of a damage rectangle as `FlushImage` passes them on, position
`(Min.X, Min.Y)`, width `Dx` and height `Dy`, are representable as `int32`. -/
def boundsFitInt32 (b : Rectangle) : Prop :=
  fitsInt32 b.Min.X ∧ fitsInt32 b.Min.Y ∧ fitsInt32 b.Dx ∧ fitsInt32 b.Dy

instance (b : Rectangle) : Decidable (boundsFitInt32 b) := by
  unfold boundsFitInt32; infer_instance

/-- The window that `NewWindow` returns for 100 by 80 when every step
succeeds. -/
def okWindow : Window :=
  { Window.allocated with
    screen := some { PixLen := 32000, Stride := 400, Rect := Rect 0 0 100 80 } }

/-- The environment in which every step succeeds, the sync signal is found at
the second poll and the heap can provide 64 MiB. -/
def okEnv : Env :=
  { connect := none, iterate := none, syncPolls := [.empty none, .found],
    heapLimit := 67108864, tmpFd := 3, mmap := none }

/-! ## Lemmas on the event translator -/

theorem lastPosition_nil : lastPosition [] = { X := 0, Y := 0 } := rfl

theorem lastPosition_snoc (pre : List PointerEvent) (e : PointerEvent) :
    lastPosition (pre ++ [e]) =
      match e with
      | .enter x y => { X := x, Y := y }
      | .motion x y => { X := x, Y := y }
      | _ => lastPosition pre := by
  cases e <;> simp [lastPosition, PointerEvent.hasPosition]

theorem handleEvent_snd (pre : List PointerEvent) (e : PointerEvent) :
    (handleEvent { lastX := (lastPosition pre).X, lastY := (lastPosition pre).Y } e).2
      = translated (lastPosition pre) e := by
  cases e <;> simp [handleEvent, translated]
  split <;> rfl

theorem handleEvent_fst (pre : List PointerEvent) (e : PointerEvent) :
    (handleEvent { lastX := (lastPosition pre).X, lastY := (lastPosition pre).Y } e).1
      = { lastX := (lastPosition (pre ++ [e])).X, lastY := (lastPosition (pre ++ [e])).Y } := by
  rw [lastPosition_snoc]
  cases e <;> simp [handleEvent]
  split <;> rfl

theorem handleEventsFrom_getElem? (evs pre : List PointerEvent) (i : Nat) :
    (handleEventsFrom { lastX := (lastPosition pre).X, lastY := (lastPosition pre).Y } evs)[i]?
      = (evs[i]?).map (translated (lastPosition (pre ++ evs.take i))) := by
  induction evs generalizing pre i with
  | nil => simp [handleEventsFrom]
  | cons e es ih =>
    cases i with
    | zero => simp [handleEventsFrom, handleEvent_snd]
    | succ j =>
      simp only [handleEventsFrom, List.getElem?_cons_succ, List.take_succ_cons]
      rw [handleEvent_fst, ih (pre ++ [e]) j]
      simp

theorem handleEventsFrom_length (c : Cursor) (evs : List PointerEvent) :
    (handleEventsFrom c evs).length = evs.length := by
  induction evs generalizing c with
  | nil => rfl
  | cons e es ih => simp [handleEventsFrom, ih]

/-! ## Properties of the event translator -/

/-- C1: `handleEvents`, run from cursor state (0,0) over any finite sequence of
pointer events in arrival order, sends exactly one window event per input
event, in the same order: enter(x,y) gives MouseEntered at (x,y), leave gives
MouseExited, motion(x,y) gives MouseMoved at (x,y), and a button event gives a
MouseDown or MouseUp whose position is that of the most recent preceding enter
or motion event, (0,0) when there is none; and the scenario enter(10,20),
button(272,pressed), button(272,released) gives MouseEntered at (10,20),
MouseDown Left at (10,20), MouseUp Left at (10,20). -/
theorem handleEvents_order_and_position (evs : List PointerEvent) :
    (handleEvents evs).length = evs.length ∧
    (∀ i : Nat, (handleEvents evs)[i]? =
      (evs[i]?).map (fun e =>
        match e with
        | .enter x y => WindowEvent.MouseEnteredEvent { X := x, Y := y }
        | .leave => WindowEvent.MouseExitedEvent
        | .motion x y => WindowEvent.MouseMovedEvent { X := x, Y := y }
        | .button b state =>
            if state = 1 then
              WindowEvent.MouseDownEvent (getButton b) (lastPosition (evs.take i))
            else
              WindowEvent.MouseUpEvent (getButton b) (lastPosition (evs.take i)))) ∧
    handleEvents [.enter 10 20, .button 272 1, .button 272 0] =
      [.MouseEnteredEvent { X := 10, Y := 20 },
       .MouseDownEvent .LeftButton { X := 10, Y := 20 },
       .MouseUpEvent .LeftButton { X := 10, Y := 20 }] := by
  refine ⟨handleEventsFrom_length _ evs, ?_, by decide⟩
  intro i
  have h := handleEventsFrom_getElem? evs [] i
  simp only [lastPosition_nil, List.nil_append] at h
  unfold handleEvents
  rw [h]
  cases hi : evs[i]? with
  | none => rfl
  | some e => cases e <;> rfl

/-- C2: `getButton` maps code 272 to LeftButton, 273 to MiddleButton, 274 to
RightButton and every other code to the no-button value; and the turn of
`handleEvents` on a button event puts this same mapping in the Which field of
the MouseDownEvent it emits when the state is 1 and of the MouseUpEvent it
emits for any other state. -/
theorem getButton_mapping (c state : Nat) (cur : Cursor) :
    getButton 272 = Button.LeftButton ∧
    getButton 273 = Button.MiddleButton ∧
    getButton 274 = Button.RightButton ∧
    ((c ≠ 272 ∧ c ≠ 273 ∧ c ≠ 274) → getButton c = Button.NoButton) ∧
    (handleEvent cur (.button c 1)).2 =
      .MouseDownEvent (getButton c) { X := cur.lastX, Y := cur.lastY } ∧
    (state ≠ 1 → (handleEvent cur (.button c state)).2 =
      .MouseUpEvent (getButton c) { X := cur.lastX, Y := cur.lastY }) := by
  refine ⟨rfl, rfl, rfl, ?_, ?_, ?_⟩
  · rintro ⟨h1, h2, h3⟩
    simp [getButton, h1, h2, h3]
  · simp [handleEvent]
  · intro h
    simp [handleEvent, h]

/-- Witness of C2 at code 7 and state 0: an unmapped code gives the no-button
value, in a MouseUpEvent. -/
theorem getButton_mapping_witness :
    getButton 7 = Button.NoButton ∧
    (handleEvent { lastX := 3, lastY := 4 } (.button 7 0)).2 =
      .MouseUpEvent (getButton 7) { X := 3, Y := 4 } :=
  ⟨(getButton_mapping 7 0 { lastX := 3, lastY := 4 }).2.2.2.1 (by decide),
   (getButton_mapping 7 0 { lastX := 3, lastY := 4 }).2.2.2.2.2 (by decide)⟩

/-! ## Lemmas on the synchronous barrier -/

theorem waitLoop_returned (polls : List Poll) :
    (waitLoop polls).returned = true ↔ Poll.found ∈ polls := by
  induction polls with
  | nil => simp [waitLoop]
  | cons p ps ih =>
    cases p with
    | found => simp [waitLoop]
    | empty e => simp [waitLoop, ih]

theorem waitLoop_trace (polls : List Poll) :
    (waitLoop polls).trace = List.replicate (emptyPolls polls) Action.Iterate := by
  induction polls with
  | nil => simp [waitLoop, emptyPolls]
  | cons p ps ih =>
    cases p with
    | found => simp [waitLoop, emptyPolls]
    | empty e => simp [waitLoop, emptyPolls, ih, List.replicate_succ]

theorem emptyPolls_spec (polls : List Poll) :
    (∀ i, i < emptyPolls polls → ∃ e, polls[i]? = some (Poll.empty e)) ∧
    (Poll.found ∈ polls → polls[emptyPolls polls]? = some Poll.found) := by
  induction polls with
  | nil => simp [emptyPolls]
  | cons p ps ih =>
    cases p with
    | found => simp [emptyPolls]
    | empty e =>
      refine ⟨?_, ?_⟩
      · intro i hi
        cases i with
        | zero => exact ⟨e, by simp⟩
        | succ k =>
          simp only [emptyPolls] at hi
          simpa using ih.1 k (by omega)
      · intro h
        simp only [List.mem_cons] at h
        rcases h with h | h
        · cases h
        · simpa [emptyPolls] using ih.2 h

theorem waitLoop_map_succeed (polls : List Poll) :
    waitLoop (polls.map Poll.succeed) = waitLoop polls := by
  induction polls with
  | nil => rfl
  | cons p ps ih =>
    cases p with
    | found => simp [waitLoop, Poll.succeed]
    | empty e => simp [waitLoop, Poll.succeed, ih]

/-! ## Properties of the synchronous barrier and on FlushImage -/

/-- C3: the synchronous barrier, `waitForSync` and the wait loop of
`FlushImage` alike, returns only when a value has been posted to its done
queue: for every sequence of poll outcomes it returns if and only if some poll
finds a value, it performs one `display.Iterate` for each poll that finds the
queue empty before that, and the poll at which it returns is the first one that
finds a value. -/
theorem barrier_returns_at_first_signal (w : Window) (bounds : List Rectangle)
    (polls : List Poll) :
    ((waitForSync polls).returned = true ↔ Poll.found ∈ polls) ∧
    (waitForSync polls).trace =
      [Action.AddDoneListener, Action.Sync] ++
        List.replicate (emptyPolls polls) Action.Iterate ∧
    ((w.FlushImage bounds polls).2.returned = true ↔ Poll.found ∈ polls) ∧
    (w.FlushImage bounds polls).2.trace.count Action.Iterate = emptyPolls polls ∧
    (∀ i, i < emptyPolls polls → ∃ e, polls[i]? = some (Poll.empty e)) ∧
    (Poll.found ∈ polls → polls[emptyPolls polls]? = some Poll.found) := by
  refine ⟨?_, ?_, ?_, ?_, (emptyPolls_spec polls).1, (emptyPolls_spec polls).2⟩
  · simp [waitForSync, waitLoop_returned]
  · simp [waitForSync, waitLoop_trace]
  · simp [Window.FlushImage, waitLoop_returned]
  · simp [Window.FlushImage, waitLoop_trace, List.count_replicate, List.count_eq_zero]

/-- Witness of C3 at the polls empty, empty, found: two dispatch iterations,
then the return at the third poll. -/
theorem barrier_returns_at_first_signal_witness :
    emptyPolls [.empty none, .empty none, .found] = 2 ∧
    (waitForSync [.empty none, .empty none, .found]).returned = true ∧
    [Poll.empty none, .empty none, .found][2]? = some Poll.found :=
  ⟨by decide,
   (barrier_returns_at_first_signal Window.allocated []
      [.empty none, .empty none, .found]).1.2 (by decide),
   (barrier_returns_at_first_signal Window.allocated []
      [.empty none, .empty none, .found]).2.2.2.2.2 (by decide)⟩

/-! ## Lemmas on integer conversion -/

theorem toInt32_of_fits (v : Int) (h : fitsInt32 v) : toInt32 v = v := by
  unfold fitsInt32 at h
  unfold toInt32
  have h1 : (v + 2 ^ 31) % 2 ^ 32 = v + 2 ^ 31 := by
    apply Int.emod_eq_of_lt <;> omega
  omega

theorem wrapInt_of_isInt (v : Int) (h : isInt v) : wrapInt v = v := by
  unfold isInt at h
  unfold wrapInt
  have h1 : (v + 2 ^ 63) % 2 ^ 64 = v + 2 ^ 63 := by
    apply Int.emod_eq_of_lt <;> omega
  omega

theorem damage_map_of_fits (bounds : List Rectangle)
    (h : ∀ b ∈ bounds, boundsFitInt32 b) :
    bounds.map (fun b =>
      Action.Damage (toInt32 b.Min.X) (toInt32 b.Min.Y) (toInt32 b.Dx) (toInt32 b.Dy))
      = bounds.map (fun b => Action.Damage b.Min.X b.Min.Y b.Dx b.Dy) := by
  apply List.map_congr_left
  intro b hb
  obtain ⟨h1, h2, h3, h4⟩ := h b hb
  rw [toInt32_of_fits _ h1, toInt32_of_fits _ h2, toInt32_of_fits _ h3,
    toInt32_of_fits _ h4]

/-- C4: for every list of damage rectangles whose bounds (Min.X, Min.Y, width
Dx, height Dy) fit in 32-bit signed integers, `FlushImage` issues, in this
order and before its wait loop starts: one attach of the window's buffer at
offset (0,0); one damage request per rectangle, in list order, with arguments
(Min.X, Min.Y, Dx, Dy); then, after registering the done listener, one frame
request; the dispatch iterations of the wait come after these. For the empty
list it issues the attach and the frame request and no damage request. -/
theorem FlushImage_requests (w : Window) (bounds : List Rectangle) (polls : List Poll)
    (h : ∀ b ∈ bounds, boundsFitInt32 b) :
    (w.FlushImage bounds polls).2.trace =
      [Action.Attach w.buffer 0 0] ++
        bounds.map (fun b => Action.Damage b.Min.X b.Min.Y b.Dx b.Dy) ++
        [Action.AddDoneListener, Action.Frame] ++
        List.replicate (emptyPolls polls) Action.Iterate ∧
    (w.FlushImage [] polls).2.trace =
      [Action.Attach w.buffer 0 0, Action.AddDoneListener, Action.Frame] ++
        List.replicate (emptyPolls polls) Action.Iterate := by
  constructor
  · simp only [Window.FlushImage, waitLoop_trace, damage_map_of_fits bounds h]
  · simp [Window.FlushImage, waitLoop_trace]

/-- Witness of C4: two damage rectangles, the signal found at the second
poll. -/
theorem FlushImage_requests_witness :
    (∀ b ∈ [Rect 0 0 100 80, Rect 10 20 30 25], boundsFitInt32 b) ∧
    (okWindow.FlushImage [Rect 0 0 100 80, Rect 10 20 30 25]
        [.empty none, .found]).2.trace =
      [Action.Attach (some .buffer) 0 0, Action.Damage 0 0 100 80,
       Action.Damage 10 20 20 5, Action.AddDoneListener, Action.Frame,
       Action.Iterate] :=
  ⟨by decide,
   (FlushImage_requests okWindow [Rect 0 0 100 80, Rect 10 20 30 25]
      [.empty none, .found] (by decide)).1⟩

/-- A damage rectangle whose corner coordinates are `int32` values while its
width is not: the width argument of the request is the truncated value. -/
theorem FlushImage_wide_rectangle :
    (okWindow.FlushImage
        [{ Min := { X := -2147483648, Y := 0 }, Max := { X := 2147483647, Y := 1 } }]
        [.found]).2.trace =
      [Action.Attach (some .buffer) 0 0, Action.Damage (-2147483648) 0 (-1) 1,
       Action.AddDoneListener, Action.Frame] := by
  decide

/-- C9, as stated, fails: with the first `display.Iterate` of the wait failing,
`waitForSync` and the wait of `FlushImage` do not stop. They dispatch again,
return only when the value is found, and the call is the same as the one in
which no `Iterate` fails, so the caller observes no error. -/
theorem barrier_continues_after_Iterate_failure :
    waitForSync [.empty (some (.other "connection reset")), .empty none, .found] =
      { returned := true,
        trace := [.AddDoneListener, .Sync, .Iterate, .Iterate] } ∧
    waitForSync [.empty (some (.other "connection reset")), .empty none, .found] =
      waitForSync [.empty none, .empty none, .found] ∧
    (okWindow.FlushImage [] [.empty (some (.other "connection reset")), .empty none,
        .found]).2 =
      { returned := true,
        trace := [.Attach (some .buffer) 0 0, .AddDoneListener, .Frame, .Iterate,
                  .Iterate] } ∧
    okWindow.FlushImage [] [.empty (some (.other "connection reset")), .empty none,
        .found] =
      okWindow.FlushImage [] [.empty none, .empty none, .found] := by
  decide

/-- C9, amended: the error returned by a `display.Iterate` inside the barrier
is discarded. For every sequence of poll outcomes, `waitForSync` and
`FlushImage` behave exactly as on the sequence in which every `Iterate`
succeeds: same return, same actions, same window. -/
theorem barrier_discards_Iterate_error (w : Window) (bounds : List Rectangle)
    (polls : List Poll) :
    waitForSync polls = waitForSync (polls.map Poll.succeed) ∧
    w.FlushImage bounds polls = w.FlushImage bounds (polls.map Poll.succeed) := by
  simp [waitForSync, Window.FlushImage, waitLoop_map_succeed]

/-! ## Lemmas on NewWindow -/

theorem waitForSync_returned (polls : List Poll) :
    (waitForSync polls).returned = true ↔ Poll.found ∈ polls := by
  simp [waitForSync, waitLoop_returned]

theorem NewWindow_after_sync (env : Env) (width height : Int)
    (hc : env.connect = none) (hi : env.iterate = none)
    (hs : Poll.found ∈ env.syncPolls) (screen : RGBA)
    (hn : NewRGBA env.heapLimit (Rect 0 0 width height) = some screen) :
    NewWindow env width height =
      match Mmap env (wrapInt (screen.Stride * screen.Rect.Dy)) with
      | some err =>
          (.returned none (some err),
            [Action.Connect, .Go .globals, .AddGlobalListener, .Iterate] ++
              (waitForSync env.syncPolls).trace ++
              [.CreateTmp (wrapInt (screen.Stride * screen.Rect.Dy)),
               .Mmap env.tmpFd 0 (wrapInt (screen.Stride * screen.Rect.Dy))])
      | none =>
          (.returned
            (some { Window.allocated with
              screen := some { screen with
                PixLen := wrapInt (screen.Stride * screen.Rect.Dy) } }) none,
            [Action.Connect, .Go .globals, .AddGlobalListener, .Iterate] ++
              (waitForSync env.syncPolls).trace ++
              [.CreateTmp (wrapInt (screen.Stride * screen.Rect.Dy)),
               .Mmap env.tmpFd 0 (wrapInt (screen.Stride * screen.Rect.Dy))] ++
              [.CreatePool (some .pool) env.tmpFd
                 (toInt32 (wrapInt (screen.Stride * screen.Rect.Dy))),
               .CreateBuffer (some .buffer) 0 (toInt32 width) (toInt32 height)
                 (toInt32 screen.Stride) 1,
               .PoolDestroy,
               .CreateSurface (some .surface),
               .GetShellSurface (some .shellsurface) (some .surface),
               .SetToplevel,
               .AddPingListener, .Go .pings,
               .Go .handleEvents,
               .Go .pump]) := by
  have hr := (waitForSync_returned env.syncPolls).2 hs
  unfold NewWindow
  simp only [hc, hi, hr, hn]
  cases hm : Mmap env (wrapInt (screen.Stride * screen.Rect.Dy)) <;>
    simp [Window.allocated]

theorem NewWindow_returned (env : Env) (width height : Int) (w : Option Window)
    (err : Option Error) (h : (NewWindow env width height).1 = .returned w err) :
    (w = none ↔ err ≠ none) ∧
    (∀ w1, w = some w1 → ∃ screen, NewRGBA env.heapLimit (Rect 0 0 width height) = some screen ∧
      w1.screen = some { screen with PixLen := wrapInt (screen.Stride * screen.Rect.Dy) }) := by
  cases hc : env.connect with
  | some e =>
    simp only [NewWindow, hc, Outcome.returned.injEq] at h
    obtain ⟨rfl, rfl⟩ := h
    simp
  | none =>
    cases hi : env.iterate with
    | some e =>
      simp only [NewWindow, hc, hi, Outcome.returned.injEq] at h
      obtain ⟨rfl, rfl⟩ := h
      simp
    | none =>
      cases hr : (waitForSync env.syncPolls).returned with
      | false => simp [NewWindow, hc, hi, hr] at h
      | true =>
        cases hn : NewRGBA env.heapLimit (Rect 0 0 width height) with
        | none => simp [NewWindow, hc, hi, hr, hn] at h
        | some screen =>
          cases hm : Mmap env (wrapInt (screen.Stride * screen.Rect.Dy)) with
          | some e =>
            simp only [NewWindow, hc, hi, hr, hn, hm, Outcome.returned.injEq] at h
            simp at h
            obtain ⟨rfl, rfl⟩ := h
            simp
          | none =>
            simp only [NewWindow, hc, hi, hr, hn, hm, Outcome.returned.injEq] at h
            simp at h
            obtain ⟨rfl, rfl⟩ := h
            simp

theorem Rect_Dx_abs (width height : Int) (h1 : -(2 ^ 63) < width) (h2 : width < 2 ^ 63) :
    (Rect 0 0 width height).Dx = |width| := by
  unfold Rect Rectangle.Dx wrapInt
  by_cases hneg : 0 > width
  · simp only [hneg, if_true, abs_of_neg hneg]
    omega
  · simp only [hneg, if_false, abs_of_nonneg (not_lt.mp hneg)]
    omega

theorem Rect_Dy_abs (width height : Int) (h1 : -(2 ^ 63) < height) (h2 : height < 2 ^ 63) :
    (Rect 0 0 width height).Dy = |height| := by
  unfold Rect Rectangle.Dy wrapInt
  by_cases hneg : 0 > height
  · simp only [hneg, if_true, abs_of_neg hneg]
    omega
  · simp only [hneg, if_false, abs_of_nonneg (not_lt.mp hneg)]
    omega

theorem Rect_Dx_of_nonneg (width height : Int) (h : isInt width)
    (hd : 0 ≤ (Rect 0 0 width height).Dx) : (Rect 0 0 width height).Dx = |width| := by
  unfold isInt at h
  by_cases hm : width = -(2 ^ 63)
  · exfalso
    subst hm
    revert hd
    unfold Rect Rectangle.Dx wrapInt
    simp
  · exact Rect_Dx_abs width height (by omega) h.2

theorem Rect_Dy_of_nonneg (width height : Int) (h : isInt height)
    (hd : 0 ≤ (Rect 0 0 width height).Dy) : (Rect 0 0 width height).Dy = |height| := by
  unfold isInt at h
  by_cases hm : height = -(2 ^ 63)
  · exfalso
    subst hm
    revert hd
    unfold Rect Rectangle.Dy wrapInt
    simp
  · exact Rect_Dy_abs width height (by omega) h.2

theorem NewRGBA_some (heapLimit : Nat) (r : Rectangle) (screen : RGBA)
    (h : NewRGBA heapLimit r = some screen) :
    screen.Rect = r ∧ 0 ≤ r.Dx ∧ 0 ≤ r.Dy ∧ 4 * r.Dx * r.Dy ≤ maxAlloc ∧
    4 * r.Dx * r.Dy ≤ heapLimit ∧ screen.Stride = wrapInt (4 * r.Dx) := by
  unfold NewRGBA at h
  simp only at h
  split at h
  · simp at h
  · rename_i hcond
    simp only [Option.some.injEq] at h
    subst h
    simp only [not_or, not_lt, not_le] at hcond
    exact ⟨rfl, hcond.1, hcond.2.1, hcond.2.2.2.1, hcond.2.2.2.2, rfl⟩

theorem Window.call_fst (w : Window) (op : Op) : (w.call op).1 = w := by
  cases op <;> rfl

theorem Window.run_eq (w : Window) (ops : List Op) : w.run ops = w := by
  induction ops with
  | nil => rfl
  | cons op ops ih =>
    simp only [Window.run, Window.call_fst, ih]
    split <;> rfl

theorem NewWindow_starts_pump (env : Env) (width height : Int) (w : Window)
    (err : Option Error) (h : (NewWindow env width height).1 = .returned (some w) err) :
    (NewWindow env width height).2.getLast? = some (Action.Go Goroutine.pump) := by
  cases hc : env.connect with
  | some e => simp [NewWindow, hc] at h
  | none =>
    cases hi : env.iterate with
    | some e => simp [NewWindow, hc, hi] at h
    | none =>
      cases hr : (waitForSync env.syncPolls).returned with
      | false => simp [NewWindow, hc, hi, hr] at h
      | true =>
        cases hn : NewRGBA env.heapLimit (Rect 0 0 width height) with
        | none => simp [NewWindow, hc, hi, hr, hn] at h
        | some screen =>
          cases hm : Mmap env (wrapInt (screen.Stride * screen.Rect.Dy)) with
          | some e => simp [NewWindow, hc, hi, hr, hn, hm] at h
          | none =>
            simp only [NewWindow, hc, hi, hr, hn, hm]
            simp only [Bool.true_eq_false, if_false]
            rw [List.getLast?_append]
            rfl

/-! ## Properties of NewWindow -/

/-- C5: for every outcome of the three fallible steps of `NewWindow`
(`display.Connect`, the first `display.Iterate`, `syscall.Mmap`, the last one
reached when the sync barrier completes and `image.NewRGBA` returns its
image): a failing Connect gives a nil window with its error and no later
action; a failing first Iterate gives a nil window with its error and no later
action; a failing Mmap gives a nil window with its error, the mapping being the
last action; when all three succeed a non-nil window is returned with a nil
error; and whenever `NewWindow` returns, the window is nil exactly when the
error is non-nil. -/
theorem NewWindow_error_handling (env : Env) (width height : Int) :
    (∀ e, env.connect = some e →
      NewWindow env width height = (.returned none (some e), [.Connect])) ∧
    (∀ e, env.connect = none → env.iterate = some e →
      NewWindow env width height =
        (.returned none (some e),
          [.Connect, .Go .globals, .AddGlobalListener, .Iterate])) ∧
    (∀ screen e, env.connect = none → env.iterate = none →
      Poll.found ∈ env.syncPolls →
      NewRGBA env.heapLimit (Rect 0 0 width height) = some screen →
      Mmap env (wrapInt (screen.Stride * screen.Rect.Dy)) = some e →
      NewWindow env width height =
        (.returned none (some e),
          [Action.Connect, .Go .globals, .AddGlobalListener, .Iterate] ++
            (waitForSync env.syncPolls).trace ++
            [.CreateTmp (wrapInt (screen.Stride * screen.Rect.Dy)),
             .Mmap env.tmpFd 0 (wrapInt (screen.Stride * screen.Rect.Dy))])) ∧
    (∀ screen, env.connect = none → env.iterate = none →
      Poll.found ∈ env.syncPolls →
      NewRGBA env.heapLimit (Rect 0 0 width height) = some screen →
      Mmap env (wrapInt (screen.Stride * screen.Rect.Dy)) = none →
      (NewWindow env width height).1 =
        .returned
          (some { Window.allocated with
            screen := some { screen with
              PixLen := wrapInt (screen.Stride * screen.Rect.Dy) } })
          none) ∧
    (∀ w err, (NewWindow env width height).1 = .returned w err →
      (w = none ↔ err ≠ none)) := by
  refine ⟨?_, ?_, ?_, ?_, ?_⟩
  · intro e hc
    simp [NewWindow, hc]
  · intro e hc hi
    simp [NewWindow, hc, hi]
  · intro screen e hc hi hs hn hm
    rw [NewWindow_after_sync env width height hc hi hs screen hn, hm]
  · intro screen hc hi hs hn hm
    rw [NewWindow_after_sync env width height hc hi hs screen hn, hm]
  · intro w err h
    exact (NewWindow_returned env width height w err h).1

/-- Witness of C5: a failing mapping in an environment where the connection
steps succeed, for a window of 100 by 80. -/
theorem NewWindow_error_handling_witness :
    NewWindow { okEnv with mmap := some (.errno 12) } 100 80 =
      (.returned none (some (.errno 12)),
        [.Connect, .Go .globals, .AddGlobalListener, .Iterate, .AddDoneListener,
         .Sync, .Iterate, .CreateTmp 32000, .Mmap 3 0 32000]) :=
  (NewWindow_error_handling { okEnv with mmap := some (.errno 12) } 100 80).2.2.1
    { PixLen := 32000, Stride := 400, Rect := Rect 0 0 100 80 } (.errno 12)
    rfl rfl (by decide) (by decide) (by decide)

/-- C6, as stated, fails for negative dimensions: with every fallible step
succeeding, `NewWindow(-5, -3)` is not rejected; it returns a non-nil window and
a nil error, after asking for a buffer of width -5 and height -3. -/
theorem NewWindow_negative_not_rejected :
    (NewWindow okEnv (-5) (-3)).1.rejected = false ∧
    (NewWindow okEnv (-5) (-3)).1 =
      .returned
        (some { Window.allocated with
          screen := some { PixLen := 60, Stride := 20, Rect := Rect 0 0 (-5) (-3) } })
        none ∧
    Action.CreateBuffer (some .buffer) 0 (-5) (-3) 20 1 ∈ (NewWindow okEnv (-5) (-3)).2 := by
  decide

/-- C6, amended: `NewWindow(0, 0)` never panics and is rejected whenever it
returns, with a nil window and a non-nil error; it fails to return only when
the sync barrier never finds its value, and when Connect and the first Iterate
succeed and the barrier completes the error is the `EINVAL` of the mapping of
zero bytes. A negative width or height is not rejected: when every fallible
step succeeds, both dimensions are non-zero and the pixel buffer of
`4 * |width| * |height|` bytes can be allocated (it is no larger than the
largest allocation of the runtime, nor than what the heap can provide),
`NewWindow(width, height)` returns a non-nil window with a nil error, whose
`Size()` is `(|width|, |height|)`. -/
theorem NewWindow_dimensions (env : Env) (width height : Int) :
    ((NewWindow env 0 0).1 = .blocked ∨ (NewWindow env 0 0).1.rejected = true) ∧
    ((NewWindow env 0 0).1 = .blocked → Poll.found ∉ env.syncPolls) ∧
    (env.connect = none → env.iterate = none → Poll.found ∈ env.syncPolls →
      (NewWindow env 0 0).1 = .returned none (some EINVAL)) ∧
    (env.connect = none → env.iterate = none → Poll.found ∈ env.syncPolls →
      env.mmap = none → (width < 0 ∨ height < 0) → width ≠ 0 → height ≠ 0 →
      4 * |width| * |height| ≤ maxAlloc → 4 * |width| * |height| ≤ env.heapLimit →
      (NewWindow env width height).1 =
        .returned
          (some { Window.allocated with
            screen := some { PixLen := 4 * |width| * |height|, Stride := 4 * |width|,
                             Rect := Rect 0 0 width height } })
          none ∧
      createdSize (NewWindow env width height).1 = some (|width|, |height|)) := by
  have h00 : NewRGBA env.heapLimit (Rect 0 0 0 0) =
      some { PixLen := 0, Stride := 0, Rect := Rect 0 0 0 0 } := by
    simp [NewRGBA, Rect, Rectangle.Dx, Rectangle.Dy, wrapInt, maxAlloc]
  have hm0 : Mmap env (wrapInt (0 * (Rect 0 0 0 0).Dy)) = some EINVAL := by
    simp [Mmap, wrapInt]
  have key : env.connect = none → env.iterate = none → Poll.found ∈ env.syncPolls →
      (NewWindow env 0 0).1 = .returned none (some EINVAL) := by
    intro hc hi hs
    rw [NewWindow_after_sync env 0 0 hc hi hs _ h00]
    simp only [hm0]
  refine ⟨?_, ?_, key, ?_⟩
  · cases hc : env.connect with
    | some e => right; simp [NewWindow, hc, Outcome.rejected]
    | none =>
      cases hi : env.iterate with
      | some e => right; simp [NewWindow, hc, hi, Outcome.rejected]
      | none =>
        by_cases hs : Poll.found ∈ env.syncPolls
        · right
          rw [key hc hi hs]
          rfl
        · left
          have hr : (waitForSync env.syncPolls).returned = false := by
            cases hb : (waitForSync env.syncPolls).returned with
            | false => rfl
            | true => exact absurd ((waitForSync_returned _).1 hb) hs
          simp [NewWindow, hc, hi, hr]
  · intro hb hs
    cases hc : env.connect with
    | some e => simp [NewWindow, hc] at hb
    | none =>
      cases hi : env.iterate with
      | some e => simp [NewWindow, hc, hi] at hb
      | none =>
        rw [key hc hi hs] at hb
        cases hb
  · intro hc hi hs hm _ hw0 hh0 hmax hheap
    have hsize : 4 * |width| * |height| < 2 ^ 63 := by
      unfold maxAlloc at hmax
      omega
    have ha : (1 : Int) ≤ |width| := Int.one_le_abs hw0
    have hb : (1 : Int) ≤ |height| := Int.one_le_abs hh0
    have hab : |width| ≤ |width| * |height| := le_mul_of_one_le_right (abs_nonneg _) hb
    have hba : |height| ≤ |width| * |height| := le_mul_of_one_le_left (abs_nonneg _) ha
    have hpos : 0 < |width| * |height| := by positivity
    have hassoc : 4 * |width| * |height| = 4 * (|width| * |height|) := mul_assoc _ _ _
    have hwl := abs_lt.mp (show |width| < 2 ^ 63 by omega)
    have hhl := abs_lt.mp (show |height| < 2 ^ 63 by omega)
    have hdx := Rect_Dx_abs width height hwl.1 hwl.2
    have hdy := Rect_Dy_abs width height hhl.1 hhl.2
    have hstride : wrapInt (4 * |width|) = 4 * |width| :=
      wrapInt_of_isInt _ ⟨by omega, by omega⟩
    have hn : NewRGBA env.heapLimit (Rect 0 0 width height) =
        some { PixLen := 4 * |width| * |height|, Stride := 4 * |width|,
               Rect := Rect 0 0 width height } := by
      unfold NewRGBA
      simp only [hdx, hdy, hstride]
      rw [if_neg]
      simp only [not_or, not_lt, not_le]
      exact ⟨by omega, by omega, by omega, hmax, hheap⟩
    have hsz : wrapInt (4 * |width| * (Rect 0 0 width height).Dy) = 4 * |width| * |height| := by
      rw [hdy]
      exact wrapInt_of_isInt _ ⟨by omega, hsize⟩
    have hmm : Mmap env (4 * |width| * |height|) = none := by
      unfold Mmap
      rw [if_neg (by omega)]
      exact hm
    rw [NewWindow_after_sync env width height hc hi hs _ hn]
    simp only [hsz, hmm]
    exact ⟨trivial, by simp [createdSize, Window.Size, hdx, hdy]⟩

/-- Witness of C6, amended: the second part at width -5 and height -3. -/
theorem NewWindow_dimensions_witness :
    createdSize (NewWindow okEnv (-5) (-3)).1 = some (|(-5 : Int)|, |(-3 : Int)|) :=
  ((NewWindow_dimensions okEnv (-5) (-3)).2.2.2 rfl rfl (by decide) rfl
    (by decide) (by decide) (by decide) (by decide) (by decide)).2

/-- C7, as stated, fails for negative dimensions: the window that
`NewWindow(-5, -3)` returns when every step succeeds has `Size()` equal to
`(5, 3)`, not `(-5, -3)`. -/
theorem Size_of_negative_dimensions :
    createdSize (NewWindow okEnv (-5) (-3)).1 = some (5, 3) ∧
    createdSize (NewWindow okEnv (-5) (-3)).1 ≠ some (-5, -3) := by
  decide

/-- C7, amended: for every window returned by `NewWindow(width, height)`,
`Size()` returns `(|width|, |height|)`, which is `(width, height)` when both
are non-negative, and it still does after any sequence of SetTitle, SetSize
(with any arguments), Show, FlushImage and Close calls. -/
theorem Size_fixed_at_creation (env : Env) (width height : Int) (w : Window)
    (ops : List Op) (hw : isInt width) (hh : isInt height)
    (h : (NewWindow env width height).1 = .returned (some w) none) :
    w.Size = some (|width|, |height|) ∧
    (w.run ops).Size = some (|width|, |height|) ∧
    (0 ≤ width → 0 ≤ height → (w.run ops).Size = some (width, height)) := by
  obtain ⟨screen, hn, hs⟩ := (NewWindow_returned env width height _ _ h).2 w rfl
  obtain ⟨hrect, hdx, hdy, _, _, _⟩ := NewRGBA_some _ _ _ hn
  have hsize : w.Size = some (|width|, |height|) := by
    simp only [Window.Size, hs, hrect]
    rw [Rect_Dx_of_nonneg width height hw hdx, Rect_Dy_of_nonneg width height hh hdy]
  refine ⟨hsize, ?_, ?_⟩
  · rw [Window.run_eq]
    exact hsize
  · intro h0 h1
    rw [Window.run_eq, hsize, abs_of_nonneg h0, abs_of_nonneg h1]

/-- Witness of C7, amended: a window of 100 by 80 after a title change, a
resize request, a flush and a close. -/
theorem Size_fixed_at_creation_witness :
    (okWindow.run [.SetTitle "demo", .SetSize 640 480, .Show,
        .FlushImage [Rect 0 0 100 80] [.empty none, .found], .Close]).Size =
      some (100, 80) :=
  (Size_fixed_at_creation okEnv 100 80 okWindow
    [.SetTitle "demo", .SetSize 640 480, .Show,
      .FlushImage [Rect 0 0 100 80] [.empty none, .found], .Close]
    (by decide) (by decide) (by decide)).2.2 (by decide) (by decide)

/-- C10, as stated, fails: `NewWindow` returns the 100 by 80 window with the
perpetual pump goroutine started as its last action, and a later `FlushImage`
on that window, whose first poll finds the queue empty, itself invokes
`display.Iterate`. -/
theorem FlushImage_dispatches_after_pump_started :
    (NewWindow okEnv 100 80).1 = .returned (some okWindow) none ∧
    (NewWindow okEnv 100 80).2.getLast? = some (Action.Go Goroutine.pump) ∧
    Action.Iterate ∈ (okWindow.FlushImage [] [.empty none, .found]).2.trace := by
  decide

/-- C10, amended: a `NewWindow` that returns a window has started the perpetual
pump goroutine as its last action, and the wait inside `FlushImage` on that
window nevertheless invokes `display.Iterate` itself, once for each poll that
finds its done queue empty before the first poll that finds a value; dispatch
is thus invoked both by the pump goroutine and by the caller of
`FlushImage`. -/
theorem FlushImage_dispatches_itself (env : Env) (width height : Int) (w : Window)
    (bounds : List Rectangle) (polls : List Poll)
    (h : (NewWindow env width height).1 = .returned (some w) none) :
    (NewWindow env width height).2.getLast? = some (Action.Go Goroutine.pump) ∧
    (w.FlushImage bounds polls).2.trace.count Action.Iterate = emptyPolls polls := by
  refine ⟨NewWindow_starts_pump env width height w none h, ?_⟩
  simp [Window.FlushImage, waitLoop_trace, List.count_replicate, List.count_eq_zero]

/-- Witness of C10, amended: the 100 by 80 window, flushed with two empty
polls before the value. -/
theorem FlushImage_dispatches_itself_witness :
    (NewWindow okEnv 100 80).2.getLast? = some (Action.Go Goroutine.pump) ∧
    (okWindow.FlushImage [Rect 0 0 100 80]
        [.empty none, .empty none, .found]).2.trace.count Action.Iterate =
      emptyPolls [.empty none, .empty none, .found] :=
  FlushImage_dispatches_itself okEnv 100 80 okWindow [Rect 0 0 100 80]
    [.empty none, .empty none, .found] (by decide)

/-! ## Properties of the globals listener -/

/-- C8: the requests that the globals listener issues for an advertised global
are selected by the whitespace-trimmed interface name alone. For
wl_compositor, wl_shm, wl_shell and wl_data_device_manager it issues exactly
one bind of the advertised name and version to the corresponding object of the
window; for wl_seat it issues the bind to the seat followed by exactly two
requests, get-data-device for that seat and get-pointer for that seat; for
every other interface name it issues no request. Over a sequence of advertised
globals the requests are those of each global in turn. -/
theorem bindGlobal_requests (w : Window) (global : DisplayGlobal)
    (events : List DisplayGlobal) :
    (TrimSpace global.Iface = "wl_compositor" →
      bindGlobal w global =
        [.Bind global.Name global.Iface global.Version w.compositor]) ∧
    (TrimSpace global.Iface = "wl_shm" →
      bindGlobal w global = [.Bind global.Name global.Iface global.Version w.shm]) ∧
    (TrimSpace global.Iface = "wl_shell" →
      bindGlobal w global = [.Bind global.Name global.Iface global.Version w.shell]) ∧
    (TrimSpace global.Iface = "wl_data_device_manager" →
      bindGlobal w global = [.Bind global.Name global.Iface global.Version w.ddm]) ∧
    (TrimSpace global.Iface = "wl_seat" →
      bindGlobal w global =
        [.Bind global.Name global.Iface global.Version w.seat,
         .GetDataDevice w.dd w.seat,
         .GetPointer w.pointer]) ∧
    (TrimSpace global.Iface ∉
        ["wl_compositor", "wl_shm", "wl_shell", "wl_seat", "wl_data_device_manager"] →
      bindGlobal w global = []) ∧
    globalsListener w (global :: events) = bindGlobal w global ++ globalsListener w events := by
  refine ⟨?_, ?_, ?_, ?_, ?_, ?_, rfl⟩
  · intro h
    simp [bindGlobal, h]
  · intro h
    simp [bindGlobal, h]
  · intro h
    simp [bindGlobal, h]
  · intro h
    simp [bindGlobal, h]
  · intro h
    simp [bindGlobal, h]
  · intro h
    simp only [List.mem_cons, List.mem_singleton, List.not_mem_nil, or_false, not_or] at h
    obtain ⟨h1, h2, h3, h4, h5⟩ := h
    simp [bindGlobal, h1, h2, h3, h4, h5]

/-- Witness of C8: a seat advertised with padding around its interface name,
and a global of an interface that the backend does not use. -/
theorem bindGlobal_requests_witness :
    bindGlobal okWindow { Name := 4, Iface := " wl_seat\n", Version := 1 } =
      [.Bind 4 " wl_seat\n" 1 (some .seat),
       .GetDataDevice (some .dd) (some .seat),
       .GetPointer (some .pointer)] ∧
    bindGlobal okWindow { Name := 9, Iface := "wl_output", Version := 2 } = [] :=
  ⟨(bindGlobal_requests okWindow { Name := 4, Iface := " wl_seat\n", Version := 1 }
      []).2.2.2.2.1 (by decide),
   (bindGlobal_requests okWindow { Name := 9, Iface := "wl_output", Version := 2 }
      []).2.2.2.2.2.1 (by decide)⟩

end Wayland
